import Mathlib

/-!
Verification development for the tiktok-clipper repository (src/app.py, src/clipper.py).

The embedding models the web-application core of src/app.py:

* the Segment Planner arithmetic of TikTokClipper.cut_video_into_clips
  (lines 114-125): number of clips, (start, end) pairs, and the 30-second
  minimum-length filter;
* the Geometry Transform TikTokClipper.resize_to_tiktok_format (lines 79-107);
* the Task State / Task Registry updates of TikTokClipper.update_status
  (lines 36-46), modelled as a growing list of registry snapshots (the
  trace of values successively stored in tasks[task_id]);
* the Pipeline Orchestrator TikTokClipper.process_video (lines 155-173)
  together with download_video (lines 48-77) and cut_video_into_clips
  (lines 109-153), with the external collaborators (yt-dlp retrieval,
  moviepy open and encode) abstracted as an oracle Env that says which
  calls succeed.

Machine reals (Python floats) are embedded as exact rationals; int(x) on the
nonnegative quantities involved is embedded as the integer floor.  Python
exceptions raised by a collaborator are embedded as the corresponding
except-branch of the function that catches them.
-/

/-- Lifecycle states stored in the status field of a task registry entry. -/
inductive Status
  | starting
  | downloading
  | downloaded
  | processing
  | completed
  | error
deriving DecidableEq

/-- One value of tasks[task_id]: the dictionary written by update_status
(and by the /api/process route when the task is created). -/
structure Snapshot where
  status : Status
  progress : ℕ
  message : String
  clips : List String
deriving DecidableEq

/-- The mutable fields of a TikTokClipper instance. -/
structure ClipperState where
  status : Status
  progress : ℕ
  message : String
  clips : List String
deriving DecidableEq

/-- The external collaborators of one run, as an oracle: does the yt-dlp
download succeed (and with which file name / title), does VideoFileClip
open succeed, what duration does the opened video report, and which
per-segment write_videofile calls succeed. -/
structure Env where
  download : Option String
  title : String
  openOk : Bool
  duration : ℚ
  encodeOk : ℕ → Bool

/-- update_status (app.py lines 36-46): overwrite the clipper fields and
store a full snapshot in the registry; the snapshot list is the trace of
registry values, its last element the current registry entry. -/
def update_status (st : ClipperState) (trace : List Snapshot)
    (status : Status) (progress : ℕ) (message : String) :
    ClipperState × List Snapshot :=
  (⟨status, progress, message, st.clips⟩,
   trace ++ [⟨status, progress, message, st.clips⟩])

/-- Zero-padded decimal rendering of f-string %03d for the clip index. -/
def pad3 (n : ℕ) : String :=
  if n < 10 then "00" ++ toString n
  else if n < 100 then "0" ++ toString n
  else toString n

/-- Output artifact name of segment i (0-based loop index): clip_{i+1:03d}.mp4. -/
def clipName (i : ℕ) : String :=
  "clip_" ++ pad3 (i + 1) ++ ".mp4"

/-- num_clips = math.ceil(total_duration / clip_duration) (app.py line 116);
math.ceil returns an int, and range of a negative int is empty, so the
loop bound is the nonnegative part. -/
def numClips (t s : ℚ) : ℕ := (⌈t / s⌉).toNat

/-- The (start_time, end_time) pair of loop iteration i
(app.py lines 121-122). -/
def planEntry (s t : ℚ) (i : ℕ) : ℚ × ℚ :=
  ((i : ℚ) * s, min (((i : ℚ) + 1) * s) t)

/-- All planned entries, i = 0 .. num_clips - 1. -/
def plan (t s : ℚ) : List (ℚ × ℚ) :=
  (List.range (numClips t s)).map (planEntry s t)

/-- The entries that survive the minimum-length test of app.py line 124:
an entry is skipped iff end_time - start_time < 30. -/
def viablePlan (t s : ℚ) : List (ℚ × ℚ) :=
  (plan t s).filter (fun e => !decide (e.2 - e.1 < 30))

/-- Result of resize_to_tiktok_format (app.py lines 79-107): the crop
rectangle (x1, y1, crop_w, crop_h) applied by clip.crop, then the exact
scale target of clip.resize.  A crop call with only x1/width keeps the
full height, one with only y1/height keeps the full width. -/
structure CropResult where
  x1 : ℤ
  y1 : ℤ
  crop_w : ℕ
  crop_h : ℕ
  target_w : ℕ
  target_h : ℕ
deriving DecidableEq

/-- resize_to_tiktok_format (app.py lines 79-107).  Python int() on the
nonnegative quantities here is the floor. -/
def resize_to_tiktok_format (w h : ℕ) : CropResult :=
  let target_width : ℕ := 1080
  let target_height : ℕ := 1920
  let current_r : ℚ := (w : ℚ) / (h : ℚ)
  let target_r : ℚ := (1080 : ℚ) / (1920 : ℚ)
  if current_r > target_r then
    let new_width : ℤ := ⌊(h : ℚ) * target_r⌋
    let x1 : ℤ := ⌊(w : ℚ) / 2 - (new_width : ℚ) / 2⌋
    ⟨x1, 0, new_width.toNat, h, target_width, target_height⟩
  else
    let new_height : ℤ := ⌊(w : ℚ) / target_r⌋
    let y1 : ℤ := ⌊(h : ℚ) / 2 - (new_height : ℚ) / 2⌋
    ⟨0, y1, w, new_height.toNat, target_width, target_height⟩

/-- The for-loop of cut_video_into_clips (app.py lines 120-146) on the
remaining iteration indices.  Returns false in the first component when a
write_videofile call raised (the exception is caught by the caller);
skipped short segments produce no update and no artifact; the progress
update of a segment happens before its encode, the artifact append after. -/
def cutLoop (env : Env) (t s : ℚ) (n : ℕ) :
    List ℕ → ClipperState → List Snapshot → Bool × ClipperState × List Snapshot
  | [], st, trace => (true, st, trace)
  | i :: rest, st, trace =>
    let start_time : ℚ := (i : ℚ) * s
    let end_time : ℚ := min (((i : ℚ) + 1) * s) t
    if end_time - start_time < 30 then
      cutLoop env t s n rest st trace
    else
      let progressV : ℕ := 50 + 45 * i / n
      let p := update_status st trace Status.processing progressV
        ("Création clip " ++ toString (i + 1) ++ "/" ++ toString n ++ " (format TikTok)...")
      if env.encodeOk i then
        cutLoop env t s n rest
          { p.1 with clips := p.1.clips ++ [clipName i] } p.2
      else
        (false, p.1, p.2)

/-- cut_video_into_clips (app.py lines 109-153).  The try block covers the
VideoFileClip open, the float division by clip_duration (a Python
ZeroDivisionError when clip_duration = 0) and the loop; any exception is
caught, an error/0 update is written, and [] is returned -- it is NOT
re-raised.  On normal exit self.clips is returned. -/
def cut_video_into_clips (env : Env) (clip_duration : ℚ)
    (st : ClipperState) (trace : List Snapshot) :
    List String × ClipperState × List Snapshot :=
  let p := update_status st trace Status.processing 40 "Analyse de la vidéo..."
  if env.openOk = false then
    let q := update_status p.1 p.2 Status.error 0 "Erreur découpage: open"
    ([], q.1, q.2)
  else if clip_duration = 0 then
    let q := update_status p.1 p.2 Status.error 0 "Erreur découpage: division by zero"
    ([], q.1, q.2)
  else
    let n := numClips env.duration clip_duration
    let q := update_status p.1 p.2 Status.processing 50
      ("Création de " ++ toString n ++ " clips (format 9:16)...")
    let r := cutLoop env env.duration clip_duration n (List.range n) q.1 q.2
    if r.1 then
      (r.2.1.clips, r.2.1, r.2.2)
    else
      let q2 := update_status r.2.1 r.2.2 Status.error 0 "Erreur découpage: encode"
      ([], q2.1, q2.2)

/-- download_video (app.py lines 48-77): one downloading update, then
either a downloaded update with the file name, or (exception from yt-dlp)
an error/0 update and (None, None). -/
def download_video (env : Env) (st : ClipperState) (trace : List Snapshot) :
    Option String × ClipperState × List Snapshot :=
  let p := update_status st trace Status.downloading 10 "Téléchargement de la vidéo..."
  match env.download with
  | some filename =>
    let q := update_status p.1 p.2 Status.downloaded 30 ("Téléchargé: " ++ env.title)
    (some filename, q.1, q.2)
  | none =>
    let q := update_status p.1 p.2 Status.error 0 "Erreur téléchargement"
    (none, q.1, q.2)

/-- The registry entry written by the /api/process route when the task is
created (app.py lines 200-205), before the worker thread starts. -/
def initSnapshot : Snapshot := ⟨Status.starting, 0, "Initialisation...", []⟩

/-- Fields set by TikTokClipper.__init__ (app.py lines 27-34). -/
def initState : ClipperState := ⟨Status.starting, 0, "Initialisation...", []⟩

/-- Observable outcome of one worker run: the trace of registry snapshots,
the final clipper state, and whether os.remove deleted the downloaded
source file. -/
structure RunResult where
  trace : List Snapshot
  finalState : ClipperState
  sourceRemoved : Bool

/-- process_video (app.py lines 155-173), the body run by
process_video_task (lines 176-179) on the worker thread: download, early
return on download failure, cut (which never raises: it catches its own
exceptions and returns []), unconditional deletion of the downloaded file
(it exists whenever the download succeeded), then a completed/100 update.
Every exception of the inner phases is already caught inside those phases,
so the outer except branch of lines 172-173 is dead in this model and
process_video is a total function: it never propagates an exception. -/
def process_video (env : Env) (clip_duration : ℚ) : RunResult :=
  let d := download_video env initState [initSnapshot]
  match d.1 with
  | none => ⟨d.2.2, d.2.1, false⟩
  | some _ =>
    let c := cut_video_into_clips env clip_duration d.2.1 d.2.2
    let f := update_status c.2.1 c.2.2 Status.completed 100
      ("✅ " ++ toString c.1.length ++ " clips créés!")
    ⟨f.2, f.1, true⟩

/-- Oracle of the scenario used against claims C1, C2, C4 and C9: a 195 s
video cut with the default clip_duration 65 (a 3-segment plan, all three
viable), where the encode of segment 2 (loop index 1) fails. -/
def env1 : Env :=
  ⟨some "clips_output/temp_video.mp4", "demo", true, 195, fun i => i != 1⟩

/-- Oracle of the scenario used against claim C3: same 3-segment plan, but
the encode of segment 1 (loop index 0) already fails. -/
def env2 : Env :=
  ⟨some "clips_output/temp_video.mp4", "demo", true, 195, fun _ => false⟩

/-- Oracle of a fully successful run: 130 s video, every encode succeeds. -/
def envOk : Env :=
  ⟨some "clips_output/temp_video.mp4", "demo", true, 130, fun _ => true⟩

/-- Evaluation helper: the ceiling-based clip count, given bracketing
inequalities on the rational quotient. -/
theorem numClips_eval (t s : ℚ) (k : ℕ) (h1 : (k : ℚ) - 1 < t / s) (h2 : t / s ≤ (k : ℚ)) :
    numClips t s = k := by
  have hc : (⌈t / s⌉ : ℤ) = (k : ℤ) := by
    rw [Int.ceil_eq_iff]
    constructor
    · push_cast
      exact h1
    · push_cast
      exact h2
  simp [numClips, hc]

/-- Artifact name of the first loop iteration. -/
theorem clipName_zero : clipName 0 = "clip_001.mp4" := by rfl

/-- Artifact name of the second loop iteration. -/
theorem clipName_one : clipName 1 = "clip_002.mp4" := by rfl

/-- Artifact name of the third loop iteration. -/
theorem clipName_two : clipName 2 = "clip_003.mp4" := by rfl

/-- C6: the Segment Planner on the concrete inputs of the specification:
total 0 gives an empty plan; (65, 65) gives exactly the one full-length
entry (0, 65); (70, 65) gives only (0, 65), the 5 s remainder dropped;
(100, 65) gives (0, 65) and (65, 100), the 35 s remainder kept; with the
underlying clip counts 0, 1, 2 and 2. -/
theorem c6_planner_examples :
    viablePlan 0 65 = [] ∧
    viablePlan 65 65 = [(0, 65)] ∧
    viablePlan 70 65 = [(0, 65)] ∧
    viablePlan 100 65 = [(0, 65), (65, 100)] ∧
    numClips 0 65 = 0 ∧ numClips 65 65 = 1 ∧ numClips 70 65 = 2 ∧ numClips 100 65 = 2 := by
  refine ⟨?_, ?_, ?_, ?_, ?_, ?_, ?_, ?_⟩
  · rw [viablePlan, plan, numClips_eval 0 65 0 (by norm_num) (by norm_num)]
    norm_num
  · rw [viablePlan, plan, numClips_eval 65 65 1 (by norm_num) (by norm_num)]
    norm_num [planEntry, List.range_succ, min_def]
  · rw [viablePlan, plan, numClips_eval 70 65 2 (by norm_num) (by norm_num)]
    norm_num [planEntry, List.range_succ, min_def]
  · rw [viablePlan, plan, numClips_eval 100 65 2 (by norm_num) (by norm_num)]
    norm_num [planEntry, List.range_succ, min_def]
  · exact numClips_eval 0 65 0 (by norm_num) (by norm_num)
  · exact numClips_eval 65 65 1 (by norm_num) (by norm_num)
  · exact numClips_eval 70 65 2 (by norm_num) (by norm_num)
  · exact numClips_eval 100 65 2 (by norm_num) (by norm_num)

/-- C5 counterexample: with segment_duration = 10 (allowed by the claim,
which only requires it positive) and total_duration = 100, every one of
the ten planned entries is shorter than 30 s, so all of them -- not only a
final one -- are excluded, and the returned sequence is empty although
total_duration is not below 30. -/
theorem c5_counterexample :
    (plan 100 10).length = 10 ∧ viablePlan 100 10 = [] ∧ ¬ ((100 : ℚ) < 30) := by
  refine ⟨?_, ?_, by norm_num⟩
  · rw [plan, numClips_eval 100 10 10 (by norm_num) (by norm_num)]
    simp
  · rw [viablePlan, plan, numClips_eval 100 10 10 (by norm_num) (by norm_num)]
    norm_num [planEntry, List.range_succ, min_def]

/-- C8 counterexample: on the source frame (1920, 1080) the transform takes
the horizontal-crop branch of resize_to_tiktok_format (the source is wider
than the target), so the full width is NOT retained -- crop_w is 607, not
1920 -- and the value floor(1920 / (1080/1920)) named by the claim is 3413,
not 1080. -/
theorem c8_counterexample :
    (resize_to_tiktok_format 1920 1080).crop_w = 607 ∧
    (resize_to_tiktok_format 1920 1080).crop_w ≠ 1920 ∧
    ⌊(1920 : ℚ) / (1080 / 1920)⌋ = 3413 := by
  refine ⟨?_, ?_, by norm_num⟩ <;>
    · norm_num [resize_to_tiktok_format]
      decide

/-- C8 amended: on (1920, 1080) the transform crops horizontally only:
new_width = floor(1080 * 1080/1920) = 607, x_offset = floor(1920/2 - 607/2)
= 656, full height 1080 retained, then scaled to exactly 1080 x 1920. -/
theorem c8_amended :
    resize_to_tiktok_format 1920 1080 = ⟨656, 0, 607, 1080, 1080, 1920⟩ := by
  norm_num [resize_to_tiktok_format, CropResult.mk.injEq]
  decide

/-- C1: with a 3-segment plan (195 s at 65 s) and a simulated encode
failure on segment 2, the code does write an error snapshot carrying
exactly the one artifact produced before the failure, and segment 3 is
never encoded -- but the run does not halt there: cut_video_into_clips
swallows the failure, and process_video then performs a further
completed/100 update, so the final observable Task State is completed,
not error as the claim requires. -/
theorem c1_encode_failure_final_state :
    ((process_video env1 65).trace.map (fun x => (x.status, x.progress, x.clips))) =
      [(Status.starting, 0, []),
       (Status.downloading, 10, []),
       (Status.downloaded, 30, []),
       (Status.processing, 40, []),
       (Status.processing, 50, []),
       (Status.processing, 50, []),
       (Status.processing, 65, ["clip_001.mp4"]),
       (Status.error, 0, ["clip_001.mp4"]),
       (Status.completed, 100, ["clip_001.mp4"])] ∧
    (process_video env1 65).finalState.status = Status.completed ∧
    (process_video env1 65).finalState.status ≠ Status.error ∧
    (process_video env1 65).finalState.clips = ["clip_001.mp4"] := by
  refine ⟨?_, ?_, ?_, ?_⟩ <;>
    · norm_num [process_video, download_video, cut_video_into_clips, cutLoop,
        update_status, env1, initState, initSnapshot, clipName_zero,
        numClips_eval 195 65 3 (by norm_num) (by norm_num),
        List.range_succ, min_def]
      try decide

/-- C2: the status sequence written to the registry in the env1 scenario:
the error update (written when the encode of segment 2 fails) is followed
by a further update that sets completed, so an execution exists in which a
terminal status does have an outgoing transition, contrary to the claim. -/
theorem c2_terminal_status_outgoing :
    ((process_video env1 65).trace.map (fun x => x.status)) =
      [Status.starting, Status.downloading, Status.downloaded, Status.processing,
       Status.processing, Status.processing, Status.processing,
       Status.error, Status.completed] ∧
    Status.error ∈ ((process_video env1 65).trace.map (fun x => x.status)) ∧
    (((process_video env1 65).trace.map (fun x => x.status)).getLast?) =
      some Status.completed := by
  refine ⟨?_, ?_, ?_⟩ <;>
    norm_num [process_video, download_video, cut_video_into_clips, cutLoop,
      update_status, env1, initState, initSnapshot, clipName_zero,
      numClips_eval 195 65 3 (by norm_num) (by norm_num),
      List.range_succ, min_def]

/-- C3: in the env2 scenario (3-segment viable plan, encode of segment 1
fails) the last registry snapshot -- the one every observer sees from then
on -- has status completed and an EMPTY artifacts list although the
segment plan has 3 entries meeting the 30 s threshold, contradicting the
claimed invariant. -/
theorem c3_completed_snapshot_mismatch :
    (((process_video env2 65).trace.map (fun x => (x.status, x.clips))).getLast?) =
      some (Status.completed, []) ∧
    (viablePlan 195 65).length = 3 ∧
    (process_video env2 65).finalState.clips = [] := by
  refine ⟨?_, ?_, ?_⟩
  · norm_num [process_video, download_video, cut_video_into_clips, cutLoop,
      update_status, env2, initState, initSnapshot,
      numClips_eval 195 65 3 (by norm_num) (by norm_num),
      List.range_succ, min_def]
  · rw [viablePlan, plan, numClips_eval 195 65 3 (by norm_num) (by norm_num)]
    norm_num [planEntry, List.range_succ, min_def]
  · norm_num [process_video, download_video, cut_video_into_clips, cutLoop,
      update_status, env2, initState, initSnapshot,
      numClips_eval 195 65 3 (by norm_num) (by norm_num),
      List.range_succ, min_def]

/-- C4 counterexample: in the env1 scenario an encode failure occurs (an
error snapshot is written), yet process_video still deletes the retrieved
source file, because cut_video_into_clips returns normally after catching
the failure; so the file is not left in place on this error path. -/
theorem c4_counterexample :
    (process_video env1 65).sourceRemoved = true ∧
    Status.error ∈ ((process_video env1 65).trace.map (fun x => x.status)) := by
  refine ⟨?_, ?_⟩ <;>
    norm_num [process_video, download_video, cut_video_into_clips, cutLoop,
      update_status, env1, initState, initSnapshot, clipName_zero,
      numClips_eval 195 65 3 (by norm_num) (by norm_num),
      List.range_succ, min_def]

/-- C9 counterexample: the env1 run ends in completed (a successful run in
the sense of the claim), but the progress values written to the registry
are 0, 10, 30, 40, 50, 50, 65, 0, 100 -- the error update drops progress
from 65 back to 0 before the final 100, so the sequence is not
monotonically non-decreasing. -/
theorem c9_counterexample :
    ((process_video env1 65).trace.map (fun x => x.progress)) =
      [0, 10, 30, 40, 50, 50, 65, 0, 100] ∧
    (((process_video env1 65).trace.map (fun x => x.status)).getLast?) =
      some Status.completed ∧
    ¬ List.Chain' (fun a b : ℕ => a ≤ b)
      ((process_video env1 65).trace.map (fun x => x.progress)) := by
  have h : ((process_video env1 65).trace.map (fun x => x.progress)) =
      [0, 10, 30, 40, 50, 50, 65, 0, 100] := by
    norm_num [process_video, download_video, cut_video_into_clips, cutLoop,
      update_status, env1, initState, initSnapshot, clipName_zero,
      numClips_eval 195 65 3 (by norm_num) (by norm_num),
      List.range_succ, min_def]
  refine ⟨h, ?_, ?_⟩
  · norm_num [process_video, download_video, cut_video_into_clips, cutLoop,
      update_status, env1, initState, initSnapshot, clipName_zero,
      numClips_eval 195 65 3 (by norm_num) (by norm_num),
      List.range_succ, min_def]
  · rw [h]
    norm_num [List.chain'_cons, List.chain'_singleton]

/-- C7: for every positive source frame (w, h), if w/h exceeds the target
ratio 1080/1920 the transform crops horizontally only -- full height
retained, crop width floor(h * 1080/1920), x offset
floor(w/2 - new_width/2), no vertical offset -- and otherwise it crops
vertically only -- full width retained, crop height floor(w / (1080/1920)),
y offset floor(h/2 - new_height/2), no horizontal offset -- and in both
cases the cropped region is scaled to exactly 1080 x 1920. -/
theorem c7_geometry (w h : ℕ) (hw : 0 < w) (hh : 0 < h) :
    (resize_to_tiktok_format w h).target_w = 1080 ∧
    (resize_to_tiktok_format w h).target_h = 1920 ∧
    ((1080 : ℚ) / 1920 < (w : ℚ) / (h : ℚ) →
      (resize_to_tiktok_format w h).crop_h = h ∧
      (resize_to_tiktok_format w h).y1 = 0 ∧
      ((resize_to_tiktok_format w h).crop_w : ℤ) = ⌊(h : ℚ) * (1080 / 1920)⌋ ∧
      (resize_to_tiktok_format w h).x1 =
        ⌊(w : ℚ) / 2 - ((⌊(h : ℚ) * (1080 / 1920)⌋ : ℚ)) / 2⌋) ∧
    (¬ ((1080 : ℚ) / 1920 < (w : ℚ) / (h : ℚ)) →
      (resize_to_tiktok_format w h).crop_w = w ∧
      (resize_to_tiktok_format w h).x1 = 0 ∧
      ((resize_to_tiktok_format w h).crop_h : ℤ) = ⌊(w : ℚ) / (1080 / 1920)⌋ ∧
      (resize_to_tiktok_format w h).y1 =
        ⌊(h : ℚ) / 2 - ((⌊(w : ℚ) / (1080 / 1920)⌋ : ℚ)) / 2⌋) := by
  have hfw : (0 : ℤ) ≤ ⌊(h : ℚ) * (1080 / 1920)⌋ :=
    Int.floor_nonneg.mpr (by positivity)
  have hfh : (0 : ℤ) ≤ ⌊(w : ℚ) / (1080 / 1920)⌋ :=
    Int.floor_nonneg.mpr (by positivity)
  by_cases hc : (1080 : ℚ) / 1920 < (w : ℚ) / (h : ℚ)
  · simp [resize_to_tiktok_format, hc, Int.toNat_of_nonneg hfw]
  · simp [resize_to_tiktok_format, hc, Int.toNat_of_nonneg hfh]

/-- C7 witness: the square frame (1000, 1000) is wider than 9:16, so the
horizontal branch applies: full height retained and no vertical offset. -/
theorem c7_geometry_witness :
    (resize_to_tiktok_format 1000 1000).crop_h = 1000 ∧
    (resize_to_tiktok_format 1000 1000).y1 = 0 :=
  ⟨((c7_geometry 1000 1000 (by norm_num) (by norm_num)).2.2.1 (by norm_num)).1,
   ((c7_geometry 1000 1000 (by norm_num) (by norm_num)).2.2.1 (by norm_num)).2.1⟩

/-- C4 amended: the retrieved source file is deleted exactly when the
retrieval succeeded -- on the success path and equally on the
encode-failure (and open-failure, and zero-duration-division) paths,
because cut_video_into_clips swallows its exceptions; the file is left in
place only when retrieval itself fails. -/
theorem c4_amended (env : Env) (s : ℚ) :
    (process_video env s).sourceRemoved = env.download.isSome := by
  rcases hd : env.download with _ | path <;>
    simp [process_video, download_video, update_status, hd]

/-- C10: for every oracle outcome and every clip_duration (including 0,
whose Python ZeroDivisionError is caught inside cut_video_into_clips), the
worker body is total (it never propagates an exception -- process_video is
a total function of the oracle), and when it returns the registry entry
exists and is terminal: its last written snapshot carries the final status,
which is either completed or error. -/
theorem c10_worker_terminal (env : Env) (s : ℚ) :
    ((process_video env s).finalState.status = Status.completed ∨
      (process_video env s).finalState.status = Status.error) ∧
    ∃ snap, (process_video env s).trace.getLast? = some snap ∧
      snap.status = (process_video env s).finalState.status := by
  rcases hd : env.download with _ | path <;>
    simp [process_video, download_video, update_status, hd, List.getLast?_concat]

/-- The clip count as an integer is exactly the rational ceiling. -/
theorem numClips_cast (t s : ℚ) (ht : 0 ≤ t) (hs : 0 < s) :
    ((numClips t s : ℕ) : ℤ) = ⌈t / s⌉ :=
  Int.toNat_of_nonneg (Int.ceil_nonneg (div_nonneg ht hs.le))

/-- The whole duration is covered by num_clips segments of length s. -/
theorem le_numClips_mul (t s : ℚ) (ht : 0 ≤ t) (hs : 0 < s) :
    t ≤ (numClips t s : ℚ) * s := by
  have h0 : ((numClips t s : ℕ) : ℚ) = ((⌈t / s⌉ : ℤ) : ℚ) := by
    exact_mod_cast numClips_cast t s ht hs
  have h1 : t / s ≤ ((numClips t s : ℕ) : ℚ) := by
    rw [h0]
    exact Int.le_ceil (t / s)
  exact (div_le_iff₀ hs).mp h1

/-- One fewer segment of length s does not reach the whole duration. -/
theorem numClips_pred_mul_lt (t s : ℚ) (ht : 0 ≤ t) (hs : 0 < s) :
    ((numClips t s : ℚ) - 1) * s < t := by
  have h0 : ((numClips t s : ℕ) : ℚ) = ((⌈t / s⌉ : ℤ) : ℚ) := by
    exact_mod_cast numClips_cast t s ht hs
  have h1 : ((⌈t / s⌉ : ℤ) : ℚ) < t / s + 1 := Int.ceil_lt_add_one (t / s)
  have h2 : (numClips t s : ℚ) - 1 < t / s := by
    rw [h0]
    linarith
  calc ((numClips t s : ℚ) - 1) * s < t / s * s := mul_lt_mul_of_pos_right h2 hs
  _ = t := by field_simp

/-- Non-final plan entries end before the total duration, so their min is
the nominal segment end, and their length is exactly s. -/
theorem planEntry_len (t s : ℚ) (ht : 0 ≤ t) (hs : 0 < s) (i : ℕ)
    (hi : i + 1 < numClips t s) :
    (planEntry s t i).2 - (planEntry s t i).1 = s ∧
      (planEntry s t i).2 = ((i : ℚ) + 1) * s := by
  have h2 : (i + 2 : ℕ) ≤ numClips t s := hi
  have h3 : ((i : ℚ) + 2) ≤ (numClips t s : ℚ) := by exact_mod_cast h2
  have hle : ((i : ℚ) + 1) ≤ (numClips t s : ℚ) - 1 := by linarith
  have hlt : ((i : ℚ) + 1) * s < t :=
    lt_of_le_of_lt (mul_le_mul_of_nonneg_right hle hs.le)
      (numClips_pred_mul_lt t s ht hs)
  constructor
  · rw [planEntry]
    simp [min_eq_left hlt.le]
    ring
  · rw [planEntry]
    simp [min_eq_left hlt.le]

/-- Shape of the viable plan when the segment length meets the threshold:
it is a range-map prefix of the full plan, either the whole plan or the
plan minus a single final entry that was shorter than 30 s. -/
theorem viablePlan_characterization (t s : ℚ) (ht : 0 ≤ t) (hs : 0 < s) (hs30 : 30 ≤ s) :
    ∃ k, viablePlan t s = (List.range k).map (planEntry s t) ∧
      (k = numClips t s ∨
        (k + 1 = numClips t s ∧ t - (k : ℚ) * s < 30)) := by
  rcases hn : numClips t s with _ | m
  · exact ⟨0, by simp [viablePlan, plan, hn], Or.inl rfl⟩
  · have hkeep : ∀ e ∈ (List.range m).map (planEntry s t),
        (!decide (e.2 - e.1 < 30)) = true := by
      intro e he
      rcases List.mem_map.mp he with ⟨i, hi, rfl⟩
      have hi2 : i + 1 < numClips t s := by
        rw [hn]
        exact Nat.succ_lt_succ (List.mem_range.mp hi)
      have hlen := (planEntry_len t s ht hs i hi2).1
      simp only [hlen, Bool.not_eq_true', decide_eq_false_iff_not, not_lt]
      exact hs30
    have hm1 : t ≤ ((m : ℚ) + 1) * s := by
      have h := le_numClips_mul t s ht hs
      rw [hn] at h
      push_cast at h
      linarith
    have hlast2 : (planEntry s t m).2 = t := by
      rw [planEntry]
      simp [min_eq_right hm1]
    have hlast1 : (planEntry s t m).1 = (m : ℚ) * s := rfl
    have hsplit : viablePlan t s =
        ((List.range m).map (planEntry s t)).filter (fun e => !decide (e.2 - e.1 < 30)) ++
          ([planEntry s t m].filter (fun e => !decide (e.2 - e.1 < 30))) := by
      rw [viablePlan, plan, hn, List.range_succ, List.map_append,
        List.map_singleton, List.filter_append]
    by_cases hm : t - (m : ℚ) * s < 30
    · refine ⟨m, ?_, Or.inr ⟨by simp [hn], hm⟩⟩
      have hdrop : (planEntry s t m).2 - (planEntry s t m).1 < 30 := by
        rw [hlast2, hlast1]
        exact hm
      rw [hsplit, List.filter_eq_self.mpr hkeep]
      simp [List.filter_cons, hdrop]
    · refine ⟨m + 1, ?_, Or.inl (by simp [hn])⟩
      have hkept : ¬ ((planEntry s t m).2 - (planEntry s t m).1 < 30) := by
        rw [hlast2, hlast1]
        exact hm
      rw [hsplit, List.filter_eq_self.mpr hkeep, List.range_succ, List.map_append]
      simp [List.filter_cons, hkept]

/-- Chain on a mapped range from the adjacent relation. -/
theorem chain'_range_map {α : Type} (r : α → α → Prop) (f : ℕ → α) (k : ℕ)
    (h : ∀ i, i + 1 < k → r (f i) (f (i + 1))) :
    List.Chain' r ((List.range k).map f) := by
  rw [List.chain'_map]
  rcases k with _ | j
  · simp
  · exact (List.chain'_range_succ _ j).mpr fun m hm => h m (by omega)

/-- C5 amended: under the added hypothesis that segment_duration is at
least the 30 s minimum (as the default 65 s is; the claim as stated fails
for smaller positive segment_duration, see the counterexample), the
Segment Planner satisfies: every non-final entry has exactly length s;
the returned entries are a range-map prefix of the plan, missing at most
the single final entry and only when that entry is shorter than 30 s;
consecutive returned entries are contiguous (each starts where the
previous one ends) and each is non-degenerate (start strictly below end,
hence non-overlapping) and lies inside [0, total_duration]; the first
returned entry starts at 0 and the last ends at total_duration or leaves
a dropped gap shorter than 30 s; and the result is empty iff
total_duration < 30. -/
theorem c5_amended (t s : ℚ) (ht : 0 ≤ t) (hs : 0 < s) (hs30 : 30 ≤ s) :
    (∀ i, i + 1 < numClips t s →
      (planEntry s t i).2 - (planEntry s t i).1 = s) ∧
    (∃ k, viablePlan t s = (List.range k).map (planEntry s t) ∧
      (k = numClips t s ∨
        (k + 1 = numClips t s ∧ t - (k : ℚ) * s < 30))) ∧
    List.Chain' (fun a b : ℚ × ℚ => a.2 = b.1) (viablePlan t s) ∧
    (∀ e ∈ viablePlan t s,
      0 ≤ e.1 ∧ e.1 < e.2 ∧ e.2 ≤ t ∧ 30 ≤ e.2 - e.1) ∧
    (∀ e, (viablePlan t s).head? = some e → e.1 = 0) ∧
    (∀ e, (viablePlan t s).getLast? = some e → e.2 = t ∨ t - e.2 < 30) ∧
    (viablePlan t s = [] ↔ t < 30) := by
  obtain ⟨k, hk, hkc⟩ := viablePlan_characterization t s ht hs hs30
  have hkn : k ≤ numClips t s := by
    rcases hkc with h | ⟨h, _⟩
    · omega
    · omega
  have hmemfacts : ∀ e ∈ viablePlan t s,
      0 ≤ e.1 ∧ e.1 < e.2 ∧ e.2 ≤ t ∧ 30 ≤ e.2 - e.1 := by
    intro e he
    obtain ⟨hmem, hpred⟩ := List.mem_filter.mp he
    have h30 : 30 ≤ e.2 - e.1 := by
      simpa [Bool.not_eq_true', decide_eq_false_iff_not, not_lt] using hpred
    rcases List.mem_map.mp hmem with ⟨i, _, rfl⟩
    have h1 : (0 : ℚ) ≤ (i : ℚ) * s := by positivity
    refine ⟨h1, by linarith, ?_, h30⟩
    exact min_le_right _ _
  refine ⟨fun i hi => (planEntry_len t s ht hs i hi).1, ⟨k, hk, hkc⟩, ?_, hmemfacts, ?_, ?_, ?_⟩
  · rw [hk]
    refine chain'_range_map _ _ k fun i hi => ?_
    have hi2 : i + 1 < numClips t s := by omega
    have h2 := (planEntry_len t s ht hs i hi2).2
    rw [h2, planEntry]
    push_cast
    rfl
  · intro e he
    rw [hk] at he
    rcases k with _ | j
    · simp at he
    · rw [List.range_succ_eq_map, List.map_cons, List.head?_cons] at he
      have he2 : planEntry s t 0 = e := Option.some_inj.mp he
      rw [← he2, planEntry]
      simp
  · intro e he
    rw [hk] at he
    rcases k with _ | j
    · simp at he
    · rw [List.range_succ, List.map_append, List.map_singleton,
        List.getLast?_concat] at he
      have he2 : planEntry s t j = e := Option.some_inj.mp he
      rcases hkc with hcase | ⟨hcase, hshort⟩
      · left
        have hjn : t ≤ ((j : ℚ) + 1) * s := by
          have h := le_numClips_mul t s ht hs
          rw [← hcase] at h
          push_cast at h
          linarith
        rw [← he2, planEntry]
        simp [min_eq_right hjn]
      · right
        have hj2 : j + 1 < numClips t s := by omega
        have h2 := (planEntry_len t s ht hs j hj2).2
        rw [← he2, h2]
        push_cast at hshort
        linarith
  · constructor
    · intro hempty
      rw [hk] at hempty
      have hk0 : k = 0 := by
        rcases List.map_eq_nil_iff.mp hempty with h
        simpa [List.range_eq_nil] using h
      subst hk0
      rcases hkc with hcase | ⟨hcase, hshort⟩
      · have hceil : ⌈t / s⌉ = (0 : ℤ) := by
          rw [← numClips_cast t s ht hs, ← hcase]
          rfl
        have hts : t / s ≤ ((0 : ℤ) : ℚ) := Int.ceil_le.mp hceil.le
        have ht0 : t ≤ 0 := by
          have := (div_le_iff₀ hs).mp (by simpa using hts)
          simpa using this
        linarith
      · push_cast at hshort
        linarith
    · intro h30
      by_contra hne
      obtain ⟨e, he⟩ := List.exists_mem_of_ne_nil _ hne
      obtain ⟨h1, h2, h3, h4⟩ := hmemfacts e he
      linarith

/-- C5 witness: the amended statement instantiated at total_duration 100
and the default segment_duration 65: the plan is nonempty iff 100 is at
least the 30 s minimum. -/
theorem c5_amended_witness : viablePlan 100 65 = [] ↔ (100 : ℚ) < 30 :=
  (c5_amended 100 65 (by norm_num) (by norm_num) (by norm_num)).2.2.2.2.2.2

/-- When every encode succeeds, the segment loop finishes normally and
appends to the registry trace exactly one processing update per kept
(≥ 30 s) iteration index, with progress 50 + 45*i/n. -/
theorem cutLoop_ok_progress (env : Env) (t s : ℚ) (n : ℕ)
    (he : ∀ i, env.encodeOk i = true) (l : List ℕ) :
    ∀ (st : ClipperState) (trace : List Snapshot),
      (cutLoop env t s n l st trace).1 = true ∧
      ((cutLoop env t s n l st trace).2.2).map (fun x => x.progress) =
        trace.map (fun x => x.progress) ++
          (l.filter
            (fun (i : ℕ) => !decide (min (((i : ℚ) + 1) * s) t - (i : ℚ) * s < 30))).map
            (fun (i : ℕ) => 50 + 45 * i / n) := by
  induction l with
  | nil =>
    intro st trace
    simp [cutLoop]
  | cons i rest ih =>
    intro st trace
    by_cases hc : min (((i : ℚ) + 1) * s) t - (i : ℚ) * s < 30
    · have hd : (!decide (min (((i : ℚ) + 1) * s) t - (i : ℚ) * s < 30)) = false := by
        simp [hc]
      have hstep : cutLoop env t s n (i :: rest) st trace =
          cutLoop env t s n rest st trace := by
        simp [cutLoop, hc]
      rw [hstep, List.filter_cons, hd]
      simpa using ih st trace
    · have hd : (!decide (min (((i : ℚ) + 1) * s) t - (i : ℚ) * s < 30)) = true := by
        simp [hc]
      have hstep : cutLoop env t s n (i :: rest) st trace =
          cutLoop env t s n rest
            ⟨Status.processing, 50 + 45 * i / n,
              "Création clip " ++ toString (i + 1) ++ "/" ++ toString n ++ " (format TikTok)...",
              st.clips ++ [clipName i]⟩
            (trace ++ [⟨Status.processing, 50 + 45 * i / n,
              "Création clip " ++ toString (i + 1) ++ "/" ++ toString n ++ " (format TikTok)...",
              st.clips⟩]) := by
        simp [cutLoop, hc, he i, update_status]
      rw [hstep, List.filter_cons, hd]
      refine ⟨(ih _ _).1, ?_⟩
      rw [(ih _ _).2, List.map_append]
      simp

/-- When the open succeeds, the clip duration is nonzero and every encode
succeeds, cut_video_into_clips appends 40, 50 and the per-kept-segment
progress values to the registry trace. -/
theorem cut_ok_progress (env : Env) (s : ℚ) (ho : env.openOk = true)
    (he : ∀ i, env.encodeOk i = true) (hs : ¬ s = 0)
    (st : ClipperState) (trace : List Snapshot) :
    ((cut_video_into_clips env s st trace).2.2).map (fun x => x.progress) =
      (trace.map (fun x => x.progress) ++ [40, 50]) ++
        ((List.range (numClips env.duration s)).filter
          (fun (i : ℕ) => !decide (min (((i : ℚ) + 1) * s) env.duration - (i : ℚ) * s < 30))).map
          (fun (i : ℕ) => 50 + 45 * i / numClips env.duration s) := by
  have h := cutLoop_ok_progress env env.duration s (numClips env.duration s) he
    (List.range (numClips env.duration s))
    ⟨Status.processing, 50,
      "Création de " ++ toString (numClips env.duration s) ++ " clips (format 9:16)...",
      st.clips⟩
    (trace ++ [⟨Status.processing, 40, "Analyse de la vidéo...", st.clips⟩,
      ⟨Status.processing, 50,
        "Création de " ++ toString (numClips env.duration s) ++ " clips (format 9:16)...",
        st.clips⟩])
  simp only [cut_video_into_clips, update_status, ho, hs]
  norm_num
  rw [h.1]
  norm_num
  rw [h.2]
  simp

/-- On a run whose download, open and every encode succeed (and whose clip
duration is nonzero), the registry progress trace is exactly 0, 10, 30,
40, 50, then one 50 + 45*i/n value per kept segment index, then 100. -/
theorem process_video_success_trace (env : Env) (s : ℚ) (path : String)
    (hd : env.download = some path) (ho : env.openOk = true)
    (he : ∀ i, env.encodeOk i = true) (hs : ¬ s = 0) :
    (process_video env s).trace.map (fun x => x.progress) =
      ([0, 10, 30, 40, 50] ++
        ((List.range (numClips env.duration s)).filter
          (fun (i : ℕ) => !decide (min (((i : ℚ) + 1) * s) env.duration - (i : ℚ) * s < 30))).map
          (fun (i : ℕ) => 50 + 45 * i / numClips env.duration s)) ++ [100] := by
  have h := cut_ok_progress env s ho he hs
    ⟨Status.downloaded, 30, "Téléchargé: " ++ env.title, []⟩
    [initSnapshot,
     ⟨Status.downloading, 10, "Téléchargement de la vidéo...", []⟩,
     ⟨Status.downloaded, 30, "Téléchargé: " ++ env.title, []⟩]
  simp only [initSnapshot] at h
  simp only [process_video, download_video, update_status, hd, initState, initSnapshot,
    List.singleton_append, List.cons_append, List.nil_append]
  rw [List.map_append, h]
  simp [initSnapshot]

/-- C9 amended: within any run in which no failure occurs (download, open
and every per-segment encode succeed, and the clip duration is nonzero --
the claim as stated fails because a run that hits an encode failure also
ends in completed while its progress dips to 0, see the counterexample),
the progress values written to the registry are exactly 0, 10, 30, 40, 50,
then 50 + floor(i/num_segments * 45) for each kept 0-based segment index i
in increasing order, then 100; the sequence is monotonically
non-decreasing, starts at 0, ends at 100, and every written value is at
most 100 (each is a natural number by construction). -/
theorem c9_amended (env : Env) (s : ℚ) (path : String)
    (hd : env.download = some path) (ho : env.openOk = true)
    (he : ∀ i, env.encodeOk i = true) (hs : ¬ s = 0) :
    ((process_video env s).trace.map (fun x => x.progress) =
      ([0, 10, 30, 40, 50] ++
        ((List.range (numClips env.duration s)).filter
          (fun (i : ℕ) => !decide (min (((i : ℚ) + 1) * s) env.duration - (i : ℚ) * s < 30))).map
          (fun (i : ℕ) => 50 + 45 * i / numClips env.duration s)) ++ [100]) ∧
    List.Chain' (fun a b : ℕ => a ≤ b)
      ((process_video env s).trace.map (fun x => x.progress)) ∧
    (∀ x ∈ (process_video env s).trace, x.progress ≤ 100) ∧
    ((process_video env s).trace.map (fun x => x.progress)).head? = some 0 ∧
    ((process_video env s).trace.map (fun x => x.progress)).getLast? = some 100 := by
  have hmap := process_video_success_trace env s path hd ho he hs
  have hmid_mem : ∀ x ∈ ((List.range (numClips env.duration s)).filter
      (fun (i : ℕ) => !decide (min (((i : ℚ) + 1) * s) env.duration - (i : ℚ) * s < 30))).map
      (fun (i : ℕ) => 50 + 45 * i / numClips env.duration s),
      50 ≤ x ∧ x ≤ 94 := by
    intro x hx
    rcases List.mem_map.mp hx with ⟨i, hi, rfl⟩
    have hir : i < numClips env.duration s :=
      List.mem_range.mp (List.mem_of_mem_filter hi)
    have hn0 : 0 < numClips env.duration s := Nat.lt_of_le_of_lt (Nat.zero_le i) hir
    have hdiv : 45 * i / numClips env.duration s < 45 :=
      (Nat.div_lt_iff_lt_mul hn0).mpr (by omega)
    refine ⟨Nat.le_add_right 50 _, ?_⟩
    exact le_trans (Nat.add_le_add_left (Nat.lt_succ_iff.mp hdiv) 50) (by norm_num)
  have hpair : List.Pairwise (fun a b : ℕ => a ≤ b)
      (((List.range (numClips env.duration s)).filter
        (fun (i : ℕ) => !decide (min (((i : ℚ) + 1) * s) env.duration - (i : ℚ) * s < 30))).map
        (fun (i : ℕ) => 50 + 45 * i / numClips env.duration s)) := by
    refine List.Pairwise.map _ (fun a b hab => ?_)
      (List.Pairwise.sublist (List.filter_sublist _)
        (List.pairwise_lt_range (numClips env.duration s)))
    exact Nat.add_le_add_left
      (Nat.div_le_div_right (Nat.mul_le_mul_left 45 (Nat.le_of_lt hab))) 50
  refine ⟨hmap, ?_, ?_, ?_, ?_⟩
  · rw [hmap]
    refine List.Chain'.append ?_ (List.chain'_singleton 100) ?_
    · refine List.Chain'.append ?_ hpair.chain' ?_
      · norm_num [List.chain'_cons, List.chain'_singleton]
      · intro x hx y hy
        simp only [List.getLast?_cons_cons, List.getLast?_singleton] at hx
        have hx2 : 50 = x := by simpa using hx
        have hy2 := hmid_mem y (List.mem_of_mem_head? hy)
        omega
    · intro x hx y hy
      have hy2 : 100 = y := by simpa using hy
      rcases hm2 : ((List.range (numClips env.duration s)).filter
          (fun (i : ℕ) => !decide (min (((i : ℚ) + 1) * s) env.duration - (i : ℚ) * s < 30))).map
          (fun (i : ℕ) => 50 + 45 * i / numClips env.duration s) with _ | ⟨m0, mrest⟩
      · rw [hm2] at hx
        have hx2 : 50 = x := by simpa using hx
        omega
      · rw [hm2] at hx
        rw [List.getLast?_append] at hx
        have hx3 : x ∈ m0 :: mrest := by
          refine List.mem_of_getLast?_eq_some ?_
          rcases hlast : (m0 :: mrest).getLast? with _ | v
          · simp [List.getLast?_eq_none_iff] at hlast
          · rw [hlast] at hx
            have hvx : v = x := by simpa using hx
            rw [← hvx]
        have := hmid_mem x (hm2 ▸ hx3)
        omega
  · intro x hx
    have hmem : x.progress ∈ (process_video env s).trace.map (fun y => y.progress) :=
      List.mem_map_of_mem _ hx
    rw [hmap] at hmem
    simp only [List.mem_append, List.mem_cons, List.not_mem_nil, or_false] at hmem
    rcases hmem with (h5 | hmid) | h100
    · omega
    · have := hmid_mem _ hmid
      omega
    · have : x.progress = 100 := by simpa using h100
      omega
  · rw [hmap]
    rfl
  · rw [hmap]
    exact List.getLast?_concat _

/-- C9 witness: the no-failure oracle envOk with the default 65 s clip
duration; the progress trace ends at 100. -/
theorem c9_amended_witness :
    ((process_video envOk 65).trace.map (fun x => x.progress)).getLast? = some 100 :=
  (c9_amended envOk 65 "clips_output/temp_video.mp4" rfl rfl (fun _ => rfl)
    (by norm_num)).2.2.2.2
